import Mathlib

/-
Verification development for the `fact` host/VM telemetry agent.

The definitions below are a shallow embedding of the Rust sources under
src/fact/src.  Bytes are modelled as `Nat` values (< 256 where produced by
the embedded encoders), C strings and Rust strings as `List Char` or byte
lists, machine-integer casts as explicit `% 2 ^ w`, and fallible code as
`Option`/`Except`.  Each definition cites the Rust item it embeds.
-/

/-! ## Host-guest framing (src/fact/src/vsock.rs) -/

/-- Little-endian encoding of a 32-bit value as four bytes, as produced by
`u32::to_le_bytes` in `VsockClient::send_data` (header) and in
`VsockServer::handle_client` (acknowledgment). -/
def le32 (n : Nat) : List Nat :=
  [n % 256, n / 256 % 256, n / 65536 % 256, n / 16777216 % 256]

/-- Little-endian decoding of the first four bytes, as in `u32::from_le_bytes`
(header read in `VsockServer::handle_client`, ack read in
`VsockClient::send_data`). -/
def fromLe32 (bs : List Nat) : Nat :=
  bs.getD 0 0 + 256 * bs.getD 1 0 + 65536 * bs.getD 2 0 + 16777216 * bs.getD 3 0

/-- The frame `VsockClient::send_data` writes for a payload: the header
`(data.len() as u32).to_le_bytes()` (the cast truncates modulo `2 ^ 32`)
followed by the payload bytes. -/
def encodeFrame (data : List Nat) : List Nat :=
  le32 (data.length % 4294967296) ++ data

/-- One iteration of the `VsockServer::handle_client` loop over the incoming
byte stream: read exactly 4 header bytes (`none` on EOF or short read, which
breaks the loop), decode `msg_len` little-endian, read exactly `msg_len`
payload bytes (`none` on failure), then write the 4-byte zero ack.  On success
returns the recovered payload, the ack bytes written, and the unconsumed
remainder of the stream. -/
def serverStep (input : List Nat) : Option (List Nat × List Nat × List Nat) :=
  if input.length < 4 then none
  else
    let msgLen := fromLe32 (input.take 4)
    let rest := input.drop 4
    if rest.length < msgLen then none
    else some (rest.take msgLen, le32 0, rest.drop msgLen)

/-- The full `handle_client` read loop, fuelled (each successful step consumes
at least four bytes, so `input.length + 1` fuel always suffices): the list of
payloads deframed from one connection's byte stream. -/
def handleClientFrames : Nat → List Nat → List (List Nat)
  | 0, _ => []
  | fuel + 1, input =>
    match serverStep input with
    | none => []
    | some (payload, _ack, rest) => payload :: handleClientFrames fuel rest

/-- All payloads `VsockServer::handle_client` deframes from one connection. -/
def handleClient (input : List Nat) : List (List Nat) :=
  handleClientFrames (input.length + 1) input

/-- Struct `VmMessage` (vsock.rs): guest id plus the deframed payload bytes. -/
structure VmMessage where
  vm_id : List Char
  data : List Nat
deriving DecidableEq

/-- The messages `handle_client` sends on the channel sender it was given:
one per successfully deframed payload, in order. -/
def handleClientMessages (vmId : List Char) (input : List Nat) : List VmMessage :=
  (handleClient input).map (fun d => ⟨vmId, d⟩)

/-- The consumer task `VsockServer::serve` spawns for its own internal
100-slot channel (vsock.rs 182-188): its body only logs each received
message; the forwarding is left as a `TODO: Forward to sensor relay` comment
in the source.  It therefore performs no upsert calls whatever it receives. -/
def serveInternalConsumerUpserts (_msgs : List VmMessage) : List (List Nat) :=
  []

/-- The upsert payloads `SensorRelay::start` issues for the messages received
on its channel (sensor_relay.rs `forward_vm_message`): each message's bytes
are protobuf-decoded; a successful decode yields exactly one
`upsert_virtual_machine_index_report` call, a failed decode is logged and the
loop continues.  `dec` abstracts `prost::Message::decode`. -/
def relayUpserts (dec : List Nat → Option (List Nat)) (msgs : List VmMessage) :
    List (List Nat) :=
  msgs.filterMap (fun m => dec m.data)

/-- Outcome of the vsock-listener dataflow: the messages delivered on the
channel `serve` created internally, the messages delivered on the channel
whose receiver the sensor relay consumes, and the upsert calls performed. -/
structure ListenerRun where
  serveChannelMsgs : List VmMessage
  relayChannelMsgs : List VmMessage
  upserts : List (List Nat)
deriving DecidableEq

/-- Dataflow of `run_vsock_listener` (lib.rs 110-174) composed with
`VsockServer::serve` (vsock.rs 178-204).  `serve` creates its own bounded
100-slot `VmMessage` channel and hands its sender to every connection
handler, so every deframed payload lands on that internal channel, whose
consumer only logs (see `serveInternalConsumerUpserts`).  The separate
100-slot channel built in `run_vsock_listener` — the one whose receiver the
`SensorRelay` consumes — has its sender `vm_msg_tx` bound but never used, so
the relay receives nothing.  `conns` maps each accepted connection's guest id
to its incoming byte stream. -/
def run_vsock_listener (dec : List Nat → Option (List Nat))
    (conns : List (List Char × List Nat)) : ListenerRun :=
  let serveMsgs := (conns.map (fun c => handleClientMessages c.1 c.2)).flatten
  { serveChannelMsgs := serveMsgs
    relayChannelMsgs := []
    upserts := serveInternalConsumerUpserts serveMsgs ++ relayUpserts dec [] }

/-! ## Guest-side client send (src/fact/src/vsock.rs 51-112) -/

/-- Function `VsockClient::write_all`: loops until the whole buffer is written or the
peer stops accepting bytes.  The socket is modelled by the number of bytes it
will accept before `write` returns 0 (`WriteZero` error in the source).
Returns the capacity left after a full write. -/
def write_all (cap : Nat) (buf : List Nat) : Except (List Char) Nat :=
  if buf.length ≤ cap then .ok (cap - buf.length)
  else .error "failed to write whole buffer".toList

/-- Function `VsockClient::read_exact`: reads exactly `n` bytes from the stream of
bytes the peer will send, failing with `UnexpectedEof` when fewer are
available. -/
def read_exact (avail : List Nat) (n : Nat) : Except (List Char) (List Nat) :=
  if n ≤ avail.length then .ok (avail.take n)
  else .error "failed to fill whole buffer".toList

/-- Function `VsockClient::send_data` (vsock.rs 51-77): write the 4-byte little-endian
length header, write the payload, read the 4-byte ack, and succeed exactly
when the ack decodes to zero; a nonzero ack code is turned into an error even
though the bytes were transmitted.  `cap` is the number of bytes the peer
accepts before writes fail; `ackBytes` is the byte stream available when the
ack is read. -/
def send_data (data : List Nat) (cap : Nat) (ackBytes : List Nat) :
    Except (List Char) Unit :=
  match write_all cap (le32 (data.length % 4294967296)) with
  | .error e => .error e
  | .ok cap2 =>
    match write_all cap2 data with
    | .error e => .error e
    | .ok _ =>
      match read_exact ackBytes 4 with
      | .error e => .error e
      | .ok ack =>
        if fromLe32 ack = 0 then .ok ()
        else .error "Server returned error code".toList

/-! ## Package parsing and the VM agent cycle (src/fact/src/vm_agent.rs) -/

/-- Struct `scanner::v4::Package` restricted to the fields `VmAgent::run` populates
(vm_agent.rs 133-140): `id = "NAME-VERSION-RELEASE"`, `name`, combined
`version = "VERSION-RELEASE"`, `arch`, and the process-wide `SYSTEM_CPE`. -/
structure Package where
  id : List Char
  name : List Char
  version : List Char
  arch : List Char
  cpe : List Char
deriving DecidableEq

/-- Rust `str::split(sep)` on a line: every occurrence of the separator
splits, the empty string yields one empty field. -/
def splitSep (sep : Char) : List Char → List (List Char)
  | [] => [[]]
  | c :: cs =>
    if c = sep then [] :: splitSep sep cs
    else
      match splitSep sep cs with
      | [] => [[c]]
      | h :: t => (c :: h) :: t

/-- One line of the package-tool output as parsed by the `filter_map` closure
in `VmAgent::run` (vm_agent.rs 129-144): split on the pipe character; a line
with at least four fields (`parts.len() >= 4`) yields a `Package` built from
the first four, any other line is skipped. -/
def parseLine (cpe line : List Char) : Option Package :=
  let parts := splitSep '|' line
  if 4 ≤ parts.length then
    let version := parts.getD 1 [] ++ '-' :: parts.getD 2 []
    some { id := parts.getD 0 [] ++ '-' :: version
           name := parts.getD 0 []
           version := version
           arch := parts.getD 3 []
           cpe := cpe }
  else none

/-- The whole parse of the tool's stdout, given as its list of lines
(`stdout.lines().filter_map(..).collect()`). -/
def parsePkgs (cpe : List Char) (stdoutLines : List (List Char)) : List Package :=
  stdoutLines.filterMap (parseLine cpe)

/-- A well-formed `N|V|R|A` line rendered from its four fields. -/
def renderNVRA (row : List Char × List Char × List Char × List Char) : List Char :=
  row.1 ++ '|' :: row.2.1 ++ '|' :: row.2.2.1 ++ '|' :: row.2.2.2

/-- The `Package` the parser is expected to build from an `N|V|R|A` row. -/
def mkPackage (cpe : List Char) (row : List Char × List Char × List Char × List Char) :
    Package :=
  { id := row.1 ++ '-' :: (row.2.1 ++ '-' :: row.2.2.1)
    name := row.1
    version := row.2.1 ++ '-' :: row.2.2.1
    arch := row.2.2.2
    cpe := cpe }

/-- One scan cycle, `VmAgent::run` (vm_agent.rs 120-156): run the package
tool and decode its stdout as UTF-8 (both failures surface as one `Except`
error here, as both are propagated with `?` in sequence), parse the lines
(never fails), then transmit via the selected transport; a send failure is
propagated with `?`.  On success the produced packages are returned. -/
def vmAgentRun (cpe : List Char) (toolOut : Except (List Char) (List (List Char)))
    (send : List Package → Except (List Char) Unit) :
    Except (List Char) (List Package) :=
  match toolOut with
  | .error e => .error e
  | .ok stdoutLines =>
    let pkgs := parsePkgs cpe stdoutLines
    match send pkgs with
    | .error e => .error e
    | .ok _ => .ok pkgs

/-- The `run_vm_agent` cycle loop (vm_agent.rs 279-320): the agent runs one
cycle immediately and one per subsequent tick, each with `vm_agent.run().await?`
— the `?` returns the error from `run_vm_agent`, ending the loop.  Each list
entry is the environment (tool output, send outcome) one tick's cycle would
see; the result is how many cycles actually ran and the error the function
returned, if any. -/
def run_vm_agent (cpe : List Char)
    : List ((Except (List Char) (List (List Char))) × (List Package → Except (List Char) Unit))
    → Nat × Option (List Char)
  | [] => (0, none)
  | env :: rest =>
    match vmAgentRun cpe env.1 env.2 with
    | .ok _ =>
      let x := run_vm_agent cpe rest
      (x.1 + 1, x.2)
    | .error e => (1, some e)

/-! ## Path filter map setup (src/fact/src/bpf.rs, src/fact/src/lib.rs 60-68) -/

/-- Constant `PATH_MAX` from the generated kernel bindings (Linux `limits.h`). -/
def PATH_MAX : Nat := 4096

/-- Struct `path_cfg_t` (bpf.rs bindings): a fixed `PATH_MAX`-byte buffer plus a
`u16` length.  `oobWrite` additionally records whether a `set` call ever
copied bytes past the end of the fixed buffer (an out-of-bounds write, which
in the Rust source is undefined behavior with no error result). -/
structure path_cfg_t where
  path : List Nat
  len : Nat
  oobWrite : Bool
deriving DecidableEq

/-- Constructor `path_cfg_t::new` (bpf.rs 9-14): zeroed buffer, length 0. -/
def path_cfg_t.new : path_cfg_t :=
  { path := List.replicate PATH_MAX 0, len := 0, oobWrite := false }

/-- Method `path_cfg_t::set` (bpf.rs 16-27): `memcpy` of all `path.len()` bytes into
the fixed buffer — there is no bounds check and no error path — followed by
`self.len = len as u16` (truncation modulo `2 ^ 16`).  Bytes of the previous
buffer contents beyond the new length are left in place; when the source is
longer than `PATH_MAX` the copy runs past the buffer, recorded by
`oobWrite`. -/
def path_cfg_t.set (c : path_cfg_t) (p : List Nat) : path_cfg_t :=
  { path := p.take PATH_MAX ++ c.path.drop (min p.length PATH_MAX)
    len := p.length % 65536
    oobWrite := c.oobWrite || decide (PATH_MAX < p.length) }

/-- The paths-map population loop of `run_file_monitor` (lib.rs 63-68): a
single `path_cfg_t` value is created once and reused for every configured
path; entry `i` of `paths_map` receives the accumulated state after setting
path `i`. -/
def pathEntries (c : path_cfg_t) : List (List Nat) → List path_cfg_t
  | [] => []
  | p :: ps =>
    let c2 := c.set p
    c2 :: pathEntries c2 ps

/-! ## Configuration and collector selection (src/fact/src/config.rs, lib.rs) -/

/-- Enum `AgentMode` (config.rs 5-15). -/
inductive AgentMode where
  | fileMonitor
  | vmAgent
  | vsockListener
  | hybrid
deriving DecidableEq

/-- Struct `FactConfig` (config.rs 17-67), with strings as char lists. -/
structure FactConfig where
  mode : AgentMode
  paths : List (List Char)
  url : Option (List Char)
  certs : Option (List Char)
  skip_http : Bool
  use_vsock : Bool
  rpmdb : List Char
  interval : Nat
  vsock_port : Nat
  sensor_endpoint : List Char
  enable_vsock_server : Bool
  enable_vm_agent : Bool
deriving DecidableEq

/-- The clap defaults of `FactConfig` (config.rs): mode `file-monitor`, empty
path list, no URL or certs directory, flags off, rpmdb `/var/lib/rpm`,
interval 3600 s, vsock port 818, sensor endpoint `sensor:443`. -/
def defaultFactConfig : FactConfig :=
  { mode := .fileMonitor
    paths := []
    url := none
    certs := none
    skip_http := false
    use_vsock := false
    rpmdb := "/var/lib/rpm".toList
    interval := 3600
    vsock_port := 818
    sensor_endpoint := "sensor:443".toList
    enable_vsock_server := false
    enable_vm_agent := false }

/-- The collectors the process can arm. -/
inductive Collector where
  | fileMonitor
  | packageAgent
  | vsockListener
deriving DecidableEq

/-- Which collectors `run` arms (lib.rs 25-32 dispatch on `config.mode`,
plus the hybrid-mode enable flags of `run_hybrid_mode`, lib.rs 176-303:
`enable_vm_agent` arms the package agent, `enable_vsock_server` the
listener, and with neither flag set hybrid arms both by default). -/
def armedCollectors (c : FactConfig) : List Collector :=
  match c.mode with
  | .fileMonitor => [.fileMonitor]
  | .vmAgent => [.packageAgent]
  | .vsockListener => [.vsockListener]
  | .hybrid =>
    (if c.enable_vm_agent then [Collector.packageAgent] else []) ++
    (if c.enable_vsock_server then [Collector.vsockListener] else []) ++
    (if !c.enable_vm_agent && !c.enable_vsock_server then
      [Collector.packageAgent, Collector.vsockListener] else [])

/-! ## Hostname resolution (src/fact/src/vm_agent.rs 28-40) -/

/-- Rust `PathBuf::join` restricted to what `HOSTNAME` uses: joining an
absolute right-hand path (leading slash) replaces the base entirely;
otherwise the paths are concatenated with a separator (base empty: the
right-hand path alone). -/
def joinPath (base p : List Char) : List Char :=
  match p with
  | '/' :: _ => p
  | _ => match base with
    | [] => p
    | _ => base ++ '/' :: p

/-- Byte-level whitespace trim, Rust `str::trim` on the ASCII whitespace the
hostname files can contain. -/
def trimChars (s : List Char) : List Char :=
  ((s.dropWhile (fun c => c = ' ' || c = '\n' || c = '\t' || c = '\r')).reverse.dropWhile
    (fun c => c = ' ' || c = '\n' || c = '\t' || c = '\r')).reverse

/-- The `HOSTNAME` computation (vm_agent.rs 31-40): for each candidate in
`["/etc/hostname", "/proc/sys/kernel/hostname"]`, probe
`HOST_MOUNT.join(candidate)`; the first path that exists is read and
trimmed; if neither exists the result is `"no-hostname"`.  `fs` maps an
absolute path to its contents when the file exists. -/
def hostnameOf (hostMount : List Char) (fs : List Char → Option (List Char)) :
    List Char :=
  match fs (joinPath hostMount "/etc/hostname".toList) with
  | some s => trimChars s
  | none =>
    match fs (joinPath hostMount "/proc/sys/kernel/hostname".toList) with
    | some s => trimChars s
    | none => "no-hostname".toList

/-- The claim's reading of the same computation: a non-empty `HOST_MOUNT`
prefixes the probed paths (plain concatenation instead of `PathBuf::join`).
Kept separate so it can be compared with `hostnameOf`, which embeds the
source. -/
def hostnameClaimed (hostMount : List Char) (fs : List Char → Option (List Char)) :
    List Char :=
  match fs (hostMount ++ "/etc/hostname".toList) with
  | some s => trimChars s
  | none =>
    match fs (hostMount ++ "/proc/sys/kernel/hostname".toList) with
    | some s => trimChars s
    | none => "no-hostname".toList

/-- A concrete filesystem for the hostname counterexample: only the file
`/host/etc/hostname` exists, holding `vm1`. -/
def fsHostOnly : List Char → Option (List Char) :=
  fun q => if q = "/host/etc/hostname".toList then some "vm1".toList else none

/-! ## File-open record conversion and the drain loop (src/fact/src/lib.rs 84-100) -/

/-- UTF-8 continuation byte test. -/
def utf8Cont (b : Nat) : Bool :=
  128 ≤ b && b < 192

/-- RFC 3629 UTF-8 validity of a byte sequence, the check Rust's
`str::from_utf8` performs on each decoded C string field. -/
def utf8Valid : List Nat → Bool
  | [] => true
  | b :: rest =>
    if b < 128 then utf8Valid rest
    else if b < 194 then false
    else if b ≤ 223 then
      match rest with
      | c :: r => utf8Cont c && utf8Valid r
      | [] => false
    else if b ≤ 239 then
      match rest with
      | c :: d :: r =>
        let lo := if b = 224 then 160 else 128
        let hi := if b = 237 then 159 else 191
        (lo ≤ c && c ≤ hi) && utf8Cont d && utf8Valid r
      | _ => false
    else if b ≤ 244 then
      match rest with
      | c :: d :: e :: r =>
        let lo := if b = 240 then 144 else 128
        let hi := if b = 244 then 143 else 191
        (lo ≤ c && c ≤ hi) && utf8Cont d && utf8Cont e && utf8Valid r
      | _ => false
    else false

/-- A C char array read as a byte string: terminated by the first zero byte,
or else by the buffer end (spec section 4.5, record conversion). -/
def cstrBytes (buf : List Nat) : List Nat :=
  buf.takeWhile (fun b => b != 0)

/-- One string field of the record conversion: the terminated byte string
must be valid UTF-8, otherwise the conversion fails with a decode error. -/
def convertField (buf : List Nat) : Except (List Char) (List Nat) :=
  let s := cstrBytes buf
  if utf8Valid s then .ok s else .error "invalid utf-8".toList

/-- Modelled from the spec: the fixed-layout kernel record `event_t`
(`RawFileEvent`, spec section 3) — lib.rs declares `mod event` but event.rs
is not under src, so the record and its conversion are modelled from the
spec's words.  Scalar fields plus the C char-array fields the conversion
must validate; `lineage` is the up-to-two ancestors, each uid plus exe
buffer. -/
structure RawFileEvent where
  timestamp : Nat
  pid : Nat
  uid : Nat
  gid : Nat
  comm : List Nat
  exe_path : List Nat
  filename : List Nat
  lineage : List (Nat × List Nat)
deriving DecidableEq

/-- The validated event (`FileEvent`, spec section 3): scalar fields
preserved, string fields as validated byte strings. -/
structure FileEvent where
  timestamp : Nat
  pid : Nat
  uid : Nat
  gid : Nat
  comm : List Nat
  exe_path : List Nat
  filename : List Nat
  lineage : List (Nat × List Nat)
deriving DecidableEq

/-- Modelled from the spec: the `event_t → Event` conversion (`try_into` in
lib.rs 90, implemented in the absent event.rs): each C char array is read up
to its terminator and must be valid UTF-8; the first invalid field makes the
conversion fail with a decode error; scalars are preserved. -/
def convertRecord (r : RawFileEvent) : Except (List Char) FileEvent := do
  let comm ← convertField r.comm
  let exe ← convertField r.exe_path
  let fname ← convertField r.filename
  let lin ← r.lineage.mapM (fun a => do
    let e ← convertField a.2
    pure (a.1, e))
  pure ⟨r.timestamp, r.pid, r.uid, r.gid, comm, exe, fname, lin⟩

/-- The ring-buffer drain loop body (lib.rs 84-100): each record is converted
with `event.try_into().unwrap()` — on conversion failure the `unwrap` panics
and the spawned drain task aborts, so no later record of the drain is
processed.  Returns the events forwarded and whether the task panicked. -/
def drainRecords : List RawFileEvent → List FileEvent × Bool
  | [] => ([], false)
  | r :: rs =>
    match convertRecord r with
    | .ok e =>
      let x := drainRecords rs
      (e :: x.1, x.2)
    | .error _ => ([], true)

/-- The events of the records whose conversion succeeds, in order. -/
def okEvents (rs : List RawFileEvent) : List FileEvent :=
  rs.filterMap (fun r => (convertRecord r).toOption)

/-- A record whose filename buffer is not valid UTF-8 (a lone 0xFF byte). -/
def badRecord : RawFileEvent :=
  { timestamp := 1, pid := 42, uid := 0, gid := 0
    comm := [115, 104, 0]
    exe_path := [47, 98, 105, 110, 47, 115, 104, 0]
    filename := [255, 0]
    lineage := [] }

/-- A record all of whose fields convert. -/
def goodRecord : RawFileEvent :=
  { timestamp := 2, pid := 43, uid := 0, gid := 0
    comm := [115, 104, 0]
    exe_path := [47, 98, 105, 110, 47, 115, 104, 0]
    filename := [47, 101, 116, 99, 47, 112, 97, 115, 115, 119, 100, 0]
    lineage := [(0, [47, 115, 98, 105, 110, 47, 105, 110, 105, 116, 0])] }

/-! ## Helper lemmas -/

theorem le32_length (n : Nat) : (le32 n).length = 4 := rfl

theorem fromLe32_le32 (n : Nat) : fromLe32 (le32 n) = n % 4294967296 := by
  simp only [le32, fromLe32, List.getD]
  simp only [List.get?_cons_zero, List.get?_cons_succ, Option.getD_some]
  omega

/-! ## Claim theorems -/

/-- C4: host-guest framing round-trip — for any payload `b` with
`|b| < 2 ^ 32`, the client's frame `le_u32(|b|) ++ b` is deframed by one
`handle_client` iteration into exactly `b`, the handler consumes exactly the
4 header bytes plus `|b|` payload bytes (any following bytes are left for the
next iteration), and it writes exactly one 4-byte little-endian zero-status
acknowledgment. -/
theorem c4_framing_roundtrip (b rest : List Nat) (h : b.length < 4294967296) :
    serverStep (encodeFrame b ++ rest) = some (b, le32 0, rest) := by
  have hmod : b.length % 4294967296 = b.length := Nat.mod_eq_of_lt h
  simp only [serverStep, encodeFrame, List.append_assoc, hmod]
  have hlen : (le32 b.length).length = 4 := le32_length _
  rw [if_neg (by simp only [List.length_append, hlen]; omega)]
  rw [List.take_left' hlen, List.drop_left' hlen, fromLe32_le32, hmod]
  rw [if_neg (by simp only [List.length_append]; omega)]
  rw [List.take_left, List.drop_left]

/-- C4 witness: the round-trip at the concrete payload `[1, 2, 3]` followed
by a spare byte. -/
theorem c4_framing_roundtrip_witness :
    serverStep (encodeFrame [1, 2, 3] ++ [9]) = some ([1, 2, 3], le32 0, [9]) :=
  c4_framing_roundtrip [1, 2, 3] [9] (by decide)

/-- C10: `VsockClient::send_data` succeeds exactly when the peer accepts the
whole 4-byte header and payload and the 4-byte acknowledgment it then reads
decodes to the little-endian value 0; in particular a nonzero ack status
yields an error even though all bytes were transmitted. -/
theorem c10_send_data_ok_iff (data : List Nat) (cap : Nat) (ackBytes : List Nat) :
    send_data data cap ackBytes = .ok () ↔
      (4 + data.length ≤ cap ∧ 4 ≤ ackBytes.length ∧
        fromLe32 (ackBytes.take 4) = 0) := by
  simp only [send_data, write_all, read_exact, le32_length]
  by_cases h1 : 4 ≤ cap
  · simp only [if_pos h1]
    by_cases h2 : data.length ≤ cap - 4
    · simp only [if_pos h2]
      by_cases h3 : 4 ≤ ackBytes.length
      · simp only [if_pos h3]
        by_cases h4 : fromLe32 (ackBytes.take 4) = 0
        · simp only [if_pos h4, true_iff]
          exact ⟨by omega, h3, h4⟩
        · simp only [if_neg h4, reduceCtorEq, false_iff]
          intro hc
          exact h4 hc.2.2
      · simp only [if_neg h3, reduceCtorEq, false_iff]
        intro hc
        exact h3 hc.2.1
    · simp only [if_neg h2, reduceCtorEq, false_iff]
      intro hc
      exact h2 (by omega)
  · simp only [if_neg h1, reduceCtorEq, false_iff]
    intro hc
    exact h1 (by omega)

/-- C1: the listener pipeline at a concrete connection whose stream carries
one well-formed frame with payload `[1]`: the payload is deframed and sent on
`serve`'s internal channel, but the channel the sensor relay consumes
receives nothing and no upsert RPC is invoked for it — the payload is
discarded (the forwarding is a TODO in `VsockServer::serve` and the relay
channel's sender built in `run_vsock_listener` is never used).  The decoder
is `some`, so the payload would have decoded successfully. -/
theorem c1_deframed_payload_never_reaches_relay :
    (run_vsock_listener some [("vm-5".toList, encodeFrame [1])]).serveChannelMsgs =
      [⟨"vm-5".toList, [1]⟩] ∧
    (run_vsock_listener some [("vm-5".toList, encodeFrame [1])]).relayChannelMsgs = [] ∧
    (run_vsock_listener some [("vm-5".toList, encodeFrame [1])]).upserts = [] :=
  ⟨by decide, rfl, rfl⟩

/-- C7: a configured path of length `PATH_MAX + 1` does not make the file
collector's start fail — `path_cfg_t::set` has no length check and no error
result: the map entry is still produced, its `memcpy` writes
`PATH_MAX + 1` bytes into the `PATH_MAX`-byte buffer (out-of-bounds write),
and the recorded length is `PATH_MAX + 1`. -/
theorem c7_oversized_path_overflows_without_error :
    (pathEntries path_cfg_t.new [List.replicate (PATH_MAX + 1) 97]).map
      path_cfg_t.oobWrite = [true] ∧
    (pathEntries path_cfg_t.new [List.replicate (PATH_MAX + 1) 97]).map
      path_cfg_t.len = [PATH_MAX + 1] := by
  constructor
  · simp only [pathEntries, List.map_cons, List.map_nil, path_cfg_t.set,
      path_cfg_t.new, List.length_replicate]
    norm_num [PATH_MAX]
  · simp only [pathEntries, List.map_cons, List.map_nil, path_cfg_t.set,
      path_cfg_t.new, List.length_replicate]
    norm_num [PATH_MAX]

/-- C6 counterexample: the all-defaults configuration — no flag of any kind
set, empty watched-paths list — arms the file collector, not the package
collector, because collector selection follows the `mode` flag (default
`file-monitor`); the claimed enable flags and paths-based default rule do
not exist in the configuration surface. -/
theorem c6_counterexample_default_arms_file_monitor :
    defaultFactConfig.paths = [] ∧
    armedCollectors defaultFactConfig = [Collector.fileMonitor] ∧
    armedCollectors defaultFactConfig ≠ [Collector.packageAgent] := by decide

/-- C6 amended: collector selection is governed by the `mode` flag alone
(together with the hybrid-mode enable flags); the watched-paths list plays no
role, and with every flag left at its default the file collector is the one
armed, whether or not paths is empty. -/
theorem c6_amended_selection_by_mode_only :
    (∀ ps, armedCollectors { defaultFactConfig with paths := ps } =
      [Collector.fileMonitor]) ∧
    (∀ c : FactConfig,
      armedCollectors c =
        armedCollectors { defaultFactConfig with
          mode := c.mode
          enable_vm_agent := c.enable_vm_agent
          enable_vsock_server := c.enable_vsock_server }) := by
  constructor
  · intro ps
    rfl
  · intro c
    cases hc : c.mode <;> simp [armedCollectors, hc]

/-- Splitting a separator-free string yields that one field. -/
theorem splitSep_of_not_mem (sep : Char) (xs : List Char) (h : sep ∉ xs) :
    splitSep sep xs = [xs] := by
  induction xs with
  | nil => rfl
  | cons c cs ih =>
    have hc : ¬c = sep := fun hcc => h (hcc ▸ List.mem_cons_self c cs)
    have hcs : sep ∉ cs := fun hm => h (List.mem_cons_of_mem _ hm)
    simp only [splitSep, if_neg hc, ih hcs]

/-- Splitting peels one separator-free field before a separator. -/
theorem splitSep_append (sep : Char) (xs ys : List Char) (h : sep ∉ xs) :
    splitSep sep (xs ++ sep :: ys) = xs :: splitSep sep ys := by
  induction xs with
  | nil => simp [splitSep]
  | cons c cs ih =>
    have hc : ¬c = sep := fun hcc => h (hcc ▸ List.mem_cons_self c cs)
    have hcs : sep ∉ cs := fun hm => h (List.mem_cons_of_mem _ hm)
    simp only [List.cons_append, splitSep, List.append_eq, if_neg hc, ih hcs]

/-- Splitting a rendered `N|V|R|A` row with pipe-free fields yields exactly
those four fields. -/
theorem splitSep_renderNVRA (row : List Char × List Char × List Char × List Char)
    (h1 : '|' ∉ row.1) (h2 : '|' ∉ row.2.1) (h3 : '|' ∉ row.2.2.1)
    (h4 : '|' ∉ row.2.2.2) :
    splitSep '|' (renderNVRA row) = [row.1, row.2.1, row.2.2.1, row.2.2.2] := by
  simp only [renderNVRA, List.append_assoc, List.cons_append]
  rw [splitSep_append _ _ _ h1, splitSep_append _ _ _ h2, splitSep_append _ _ _ h3,
    splitSep_of_not_mem _ _ h4]

/-- Parsing a rendered `N|V|R|A` row with pipe-free fields yields the expected
package record. -/
theorem parseLine_renderNVRA (cpe : List Char)
    (row : List Char × List Char × List Char × List Char)
    (h1 : '|' ∉ row.1) (h2 : '|' ∉ row.2.1) (h3 : '|' ∉ row.2.2.1)
    (h4 : '|' ∉ row.2.2.2) :
    parseLine cpe (renderNVRA row) = some (mkPackage cpe row) := by
  simp only [parseLine, splitSep_renderNVRA row h1 h2 h3 h4]
  simp [mkPackage]

/-- C5 counterexample: a line with five pipe-separated fields is not skipped
— the parser keeps every line with at least four fields (`parts.len() >= 4`)
and builds a record from the first four, so `a|b|c|d|e` yields a package
where the claim requires the row to be skipped. -/
theorem c5_counterexample_five_fields_not_skipped :
    parseLine [] "a|b|c|d|e".toList =
      some { id := "a-b-c".toList, name := "a".toList, version := "b-c".toList,
             arch := "d".toList, cpe := ([] : List Char) } := by decide

/-- C5 amended: lines whose pipe-split yields fewer than four fields are
skipped (not errors); lines with four or more fields produce a record from
the first four; and for output whose lines each match `N|V|R|A`, the report
has exactly one package per line, in order, with `name = N`,
`version = V-R`, `architecture = A`. -/
theorem c5_amended_parse_mapping :
    (∀ cpe line, (splitSep '|' line).length < 4 → parseLine cpe line = none) ∧
    (∀ cpe (rows : List (List Char × List Char × List Char × List Char)),
      (∀ row ∈ rows, '|' ∉ row.1 ∧ '|' ∉ row.2.1 ∧ '|' ∉ row.2.2.1 ∧ '|' ∉ row.2.2.2) →
      parsePkgs cpe (rows.map renderNVRA) = rows.map (mkPackage cpe)) := by
  constructor
  · intro cpe line h
    simp only [parseLine]
    rw [if_neg (by omega)]
  · intro cpe rows
    induction rows with
    | nil => intro _; rfl
    | cons row rest ih =>
      intro h
      have hr := h row (List.mem_cons_self _ _)
      have ih2 := ih (fun x hx => h x (List.mem_cons_of_mem _ hx))
      simp only [parsePkgs] at ih2
      simp only [List.map_cons, parsePkgs, List.filterMap_cons,
        parseLine_renderNVRA cpe row hr.1 hr.2.1 hr.2.2.1 hr.2.2.2, ih2]

/-- C5 witness: the amended mapping at the spec's own fixture row
`bash|5.2.15|1.fc39|x86_64`. -/
theorem c5_amended_parse_mapping_witness :
    parsePkgs [] ([("bash".toList, "5.2.15".toList, "1.fc39".toList,
        "x86_64".toList)].map renderNVRA) =
      [("bash".toList, "5.2.15".toList, "1.fc39".toList, "x86_64".toList)].map
        (mkPackage []) :=
  c5_amended_parse_mapping.2 []
    [("bash".toList, "5.2.15".toList, "1.fc39".toList, "x86_64".toList)] (by decide)

/-- C2 counterexample: a cycle list whose first cycle fails at the package
tool and whose second would succeed — `run_vm_agent` executes only the first
cycle and returns its error (the `?` on `vm_agent.run()` terminates the
loop); the claim requires both cycles to run and the collector to survive. -/
theorem c2_counterexample_cycle_error_terminates :
    run_vm_agent []
      [(.error "Failed to run rpm command".toList, fun _ => .ok ()),
       (.ok [], fun _ => .ok ())] =
      (1, some "Failed to run rpm command".toList) ∧
    ((1 : Nat), some "Failed to run rpm command".toList) ≠
      ((2 : Nat), (none : Option (List Char))) := by
  constructor
  · rfl
  · decide

/-- C2 amended: a failure within a single scan cycle terminates the
collector — `run_vm_agent` returns the first cycle's error and runs no
further cycle (left conjunct); only when every cycle succeeds does the loop
keep running, one cycle per tick (right conjunct). -/
theorem c2_amended_first_cycle_error_stops :
    (∀ cpe pre env rest e,
      (∀ x ∈ pre, (vmAgentRun cpe x.1 x.2).isOk = true) →
      vmAgentRun cpe env.1 env.2 = .error e →
      run_vm_agent cpe (pre ++ env :: rest) = (pre.length + 1, some e)) ∧
    (∀ cpe envs, (∀ x ∈ envs, (vmAgentRun cpe x.1 x.2).isOk = true) →
      run_vm_agent cpe envs = (envs.length, none)) := by
  constructor
  · intro cpe pre env rest e
    induction pre with
    | nil =>
      intro _ herr
      simp only [List.nil_append, run_vm_agent, herr, List.length_nil]
    | cons x xs ih =>
      intro hpre herr
      obtain ⟨v, hv⟩ : ∃ v, vmAgentRun cpe x.1 x.2 = .ok v := by
        cases hx : vmAgentRun cpe x.1 x.2 with
        | ok v => exact ⟨v, rfl⟩
        | error e2 =>
          have := hpre x (List.mem_cons_self _ _)
          rw [hx] at this
          simp [Except.isOk, Except.toBool] at this
      simp only [List.cons_append, List.append_eq, run_vm_agent, hv,
        ih (fun y hy => hpre y (List.mem_cons_of_mem _ hy)) herr, List.length_cons]
  · intro cpe envs
    induction envs with
    | nil => intro _; rfl
    | cons x xs ih =>
      intro h
      obtain ⟨v, hv⟩ : ∃ v, vmAgentRun cpe x.1 x.2 = .ok v := by
        cases hx : vmAgentRun cpe x.1 x.2 with
        | ok v => exact ⟨v, rfl⟩
        | error e2 =>
          have := h x (List.mem_cons_self _ _)
          rw [hx] at this
          simp [Except.isOk, Except.toBool] at this
      simp only [run_vm_agent, hv, ih (fun y hy => h y (List.mem_cons_of_mem _ hy)),
        List.length_cons]

/-- C2 witness: the amended statement at one succeeding cycle followed by a
failing one — two cycles execute, the error is returned. -/
theorem c2_amended_first_cycle_error_stops_witness :
    run_vm_agent []
      [(.ok [], fun _ => .ok ()),
       ((.error "boom".toList : Except (List Char) (List (List Char))), fun _ => .ok ()),
       (.ok [], fun _ => .ok ())] =
      (2, some "boom".toList) :=
  c2_amended_first_cycle_error_stops.1 [] [(.ok [], fun _ => .ok ())]
    ((.error "boom".toList : Except (List Char) (List (List Char))), fun _ => .ok ())
    [(.ok [], fun _ => .ok ())] "boom".toList (by decide) rfl

/-- C3 counterexample: draining a ring buffer holding a record whose
filename is not UTF-8 followed by a perfectly convertible record — the
`unwrap` panics on the first record, the drain task aborts, and the good
record is never processed; the claim requires the bad record to be rejected
and the drain to continue. -/
theorem c3_counterexample_bad_record_aborts_drain :
    (convertRecord goodRecord).isOk = true ∧
    drainRecords [badRecord, goodRecord] = ([], true) := by
  constructor
  · decide
  · decide

/-- C3 amended: a record that fails conversion makes the drain task panic
(`try_into().unwrap()`), so the drain stops after forwarding the events of
the preceding convertible records (left conjunct); only an all-convertible
drain completes without aborting, forwarding every event (right conjunct). -/
theorem c3_amended_conversion_failure_aborts :
    (∀ pre r rest, (∀ x ∈ pre, (convertRecord x).isOk = true) →
      (convertRecord r).isOk = false →
      drainRecords (pre ++ r :: rest) = (okEvents pre, true)) ∧
    (∀ rs, (∀ x ∈ rs, (convertRecord x).isOk = true) →
      drainRecords rs = (okEvents rs, false)) := by
  constructor
  · intro pre r rest
    induction pre with
    | nil =>
      intro _ hr
      obtain ⟨e, he⟩ : ∃ e, convertRecord r = .error e := by
        cases hx : convertRecord r with
        | ok v =>
          rw [hx] at hr
          simp [Except.isOk, Except.toBool] at hr
        | error e => exact ⟨e, rfl⟩
      simp [drainRecords, he, okEvents]
    | cons x xs ih =>
      intro hpre hr
      obtain ⟨v, hv⟩ : ∃ v, convertRecord x = .ok v := by
        cases hx : convertRecord x with
        | ok v => exact ⟨v, rfl⟩
        | error e2 =>
          have := hpre x (List.mem_cons_self _ _)
          rw [hx] at this
          simp [Except.isOk, Except.toBool] at this
      simp only [List.cons_append, List.append_eq, drainRecords, hv,
        ih (fun y hy => hpre y (List.mem_cons_of_mem _ hy)) hr]
      simp [okEvents, List.filterMap_cons, hv, Except.toOption]
  · intro rs
    induction rs with
    | nil => intro _; rfl
    | cons x xs ih =>
      intro h
      obtain ⟨v, hv⟩ : ∃ v, convertRecord x = .ok v := by
        cases hx : convertRecord x with
        | ok v => exact ⟨v, rfl⟩
        | error e2 =>
          have := h x (List.mem_cons_self _ _)
          rw [hx] at this
          simp [Except.isOk, Except.toBool] at this
      simp only [drainRecords, hv, ih (fun y hy => h y (List.mem_cons_of_mem _ hy))]
      simp [okEvents, List.filterMap_cons, hv, Except.toOption]

/-- C3 witness: the amended statement at one good record followed by the
bad one — the good record's event is forwarded, then the task aborts. -/
theorem c3_amended_conversion_failure_aborts_witness :
    drainRecords [goodRecord, badRecord] = (okEvents [goodRecord], true) :=
  c3_amended_conversion_failure_aborts.1 [goodRecord] badRecord [] (by decide) (by decide)

/-- Setting a path preserves the fixed buffer size. -/
theorem path_cfg_set_length (c : path_cfg_t) (p : List Nat)
    (hc : c.path.length = PATH_MAX) : (c.set p).path.length = PATH_MAX := by
  simp only [path_cfg_t.set, List.length_append, List.length_take, List.length_drop, hc]
  omega

/-- For an in-bounds path, `set` records the exact length (the `u16` cast
does not truncate below `PATH_MAX`). -/
theorem path_cfg_set_len (c : path_cfg_t) (p : List Nat) (hp : p.length ≤ PATH_MAX) :
    (c.set p).len = p.length := by
  simp only [path_cfg_t.set]
  have : p.length < 65536 := by
    simp only [PATH_MAX] at hp
    omega
  exact Nat.mod_eq_of_lt this

/-- For an in-bounds path, the first `length` buffer bytes after `set` are
the path's bytes. -/
theorem path_cfg_set_take (c : path_cfg_t) (p : List Nat)
    (hp : p.length ≤ PATH_MAX) :
    (c.set p).path.take p.length = p := by
  simp only [path_cfg_t.set]
  rw [List.take_of_length_le hp]
  exact List.take_left p _

/-- Every entry the setup loop writes has the exact length and byte prefix
of its path, whatever earlier paths left in the reused buffer. -/
theorem pathEntries_getD (c : path_cfg_t) (ps : List (List Nat))
    (hc : c.path.length = PATH_MAX) (h : ∀ p ∈ ps, p.length ≤ PATH_MAX)
    (i : Nat) (hi : i < ps.length) :
    ((pathEntries c ps).getD i path_cfg_t.new).len = (ps.getD i []).length ∧
    ((pathEntries c ps).getD i path_cfg_t.new).path.take (ps.getD i []).length
      = ps.getD i [] := by
  induction ps generalizing c i with
  | nil => simp at hi
  | cons p rest ih =>
    cases i with
    | zero =>
      simp only [pathEntries, List.getD_cons_zero]
      have hp := h p (List.mem_cons_self _ _)
      exact ⟨path_cfg_set_len c p hp, path_cfg_set_take c p hp⟩
    | succ n =>
      simp only [pathEntries, List.getD_cons_succ]
      exact ih (c.set p) (path_cfg_set_length c p hc)
        (fun q hq => h q (List.mem_cons_of_mem _ hq)) n
        (by simpa using hi)

/-- A single path written into a fresh filter is zero-padded past its
length. -/
theorem path_cfg_new_set_padding (p : List Nat) (hp : p.length ≤ PATH_MAX) :
    (path_cfg_t.new.set p).path.drop p.length =
      List.replicate (PATH_MAX - p.length) 0 := by
  simp only [path_cfg_t.set, path_cfg_t.new]
  rw [List.take_of_length_le hp, min_eq_left hp, List.drop_replicate]
  rw [List.drop_left]

/-- C8 amended: every written map entry has `length = |p|` and bytes
`[0..length)` equal to `p` (left conjunct), and a single path written into a
fresh filter is zero-padded past its length (right conjunct) — but because
`run_file_monitor` reuses one `path_cfg_t` across paths and `set` does not
re-zero the buffer, bytes past the length may retain residue of an earlier
longer path (see the counterexample). -/
theorem c8_amended_prefix_and_fresh_padding :
    (∀ paths : List (List Nat), (∀ p ∈ paths, p.length ≤ PATH_MAX) →
      ∀ i, i < paths.length →
        ((pathEntries path_cfg_t.new paths).getD i path_cfg_t.new).len =
          (paths.getD i []).length ∧
        ((pathEntries path_cfg_t.new paths).getD i path_cfg_t.new).path.take
          (paths.getD i []).length = paths.getD i []) ∧
    (∀ p : List Nat, p.length ≤ PATH_MAX →
      (path_cfg_t.new.set p).path.drop p.length =
        List.replicate (PATH_MAX - p.length) 0) :=
  ⟨fun paths h i hi =>
    pathEntries_getD path_cfg_t.new paths (by simp [path_cfg_t.new]) h i hi,
   path_cfg_new_set_padding⟩

/-- C8 counterexample: writing the paths `ab` then `a` in sequence leaves
the second entry with length 1 but byte `b` (98) at offset 1 — not zero, the
residue of the longer first path; the claim requires every byte past the
length to be zero. -/
theorem c8_counterexample_residue_after_shorter_path :
    ((pathEntries path_cfg_t.new [[97, 98], [97]]).getD 1 path_cfg_t.new).len = 1 ∧
    ((pathEntries path_cfg_t.new [[97, 98], [97]]).getD 1 path_cfg_t.new).path.getD 1 0
      = 98 := by
  constructor
  · rfl
  · rfl

/-- C8 witness: the amended statement at the two-path sequence
`[ab, a]` (entry 1) and at the fresh single path `a`. -/
theorem c8_amended_prefix_and_fresh_padding_witness :
    (((pathEntries path_cfg_t.new [[97, 98], [97]]).getD 1 path_cfg_t.new).len =
        (([[97, 98], [97]] : List (List Nat)).getD 1 []).length ∧
      ((pathEntries path_cfg_t.new [[97, 98], [97]]).getD 1 path_cfg_t.new).path.take
        (([[97, 98], [97]] : List (List Nat)).getD 1 []).length =
        ([[97, 98], [97]] : List (List Nat)).getD 1 []) ∧
    (path_cfg_t.new.set [97]).path.drop ([97] : List Nat).length =
      List.replicate (PATH_MAX - ([97] : List Nat).length) 0 :=
  ⟨c8_amended_prefix_and_fresh_padding.1 [[97, 98], [97]] (by decide) 1 (by decide),
   c8_amended_prefix_and_fresh_padding.2 [97] (by decide)⟩

/-- C9 counterexample: with `HOST_MOUNT = /host` and a filesystem where
only `/host/etc/hostname` exists (holding `vm1`), the source computes
`no-hostname` — `PathBuf::join` with the absolute candidate paths discards
the base, so the mount never prefixes the probe — while the claim's
prefixed reading would compute `vm1`. -/
theorem c9_counterexample_host_mount_not_prefixed :
    hostnameOf "/host".toList fsHostOnly = "no-hostname".toList ∧
    hostnameClaimed "/host".toList fsHostOnly = "vm1".toList ∧
    "no-hostname".toList ≠ "vm1".toList := by
  refine ⟨by decide, by decide, by decide⟩

/-- C9 amended: the host identifier is the trimmed contents of the first
existing file among the fixed absolute paths `/etc/hostname` and
`/proc/sys/kernel/hostname` — `HOST_MOUNT` has no effect on the probed
paths, because joining a base with an absolute path replaces the base — and
`no-hostname` when neither exists: for every mount value the source's
computation equals the claimed formula specialized to an empty mount. -/
theorem c9_amended_host_mount_ignored (hm : List Char) (fs : List Char → Option (List Char)) :
    hostnameOf hm fs = hostnameClaimed [] fs := rfl
